import Mathlib

/-!
# WattpadDownloader — verification of the retrieval → normalization → compilation pipeline

Shallow embedding of the core logic of the WattpadDownloader repository
(`src/api/src/...`): the biography truncation (`smart_trim`), the filename
slugifier (`slugify`), the HTML normalizer (`clean_tree`), the redundant-break
removal pass of `generate_clean_part_html`, the batched image resolver
(`fetch_tree_images`), the cache-selection and retry policy of the remote
source client (`create_book.py`), and the download orchestrator
(`download_story` in `main.py`) composed with the EPUB generator's
chapter-pairing (`EPUBGenerator.add_chapters`).

Python machine-level details carried over faithfully:
* Python string length counts code points; Lean `String.length` does the same.
* `str.rstrip(chars)` strips a trailing run of characters drawn from a
  character *set*, not a suffix.
* BeautifulSoup text nodes have `name = None`; tag names are lower-cased by
  the parser.  Attribute access `t["k"]` raises `KeyError` when the attribute
  is missing (modelled with `Except`), while `t.attrs.get(k)` returns `None`.
-/

namespace WPD

/-! ## `smart_trim` (src/api/src/create_book/utils.py, lines 9–21) -/

/-- The character set handed to `str.rstrip("<br />")` — rstrip strips by
character set, not by suffix. -/
def rstripChars : List Char := ['<', 'b', 'r', ' ', '/', '>']

/-- Python `s.rstrip("<br />")`: remove the longest trailing run of
characters belonging to `rstripChars`. -/
def pyRstripBr (s : String) : String :=
  ⟨(s.data.reverse.dropWhile (fun c => rstripChars.contains c)).reverse⟩

/-- The accumulation loop of `smart_trim`.  Faithful to the source: the
body of the `if` branch *assigns* `to_return = chunk + "<br />"` (it does not
append), and the `else` branch rstrips and breaks. -/
def smartTrimGo (maxLength : Nat) : List String → String → String
  | [], acc => acc
  | chunk :: rest, acc =>
    if acc.length + chunk.length < maxLength then
      smartTrimGo maxLength rest (chunk ++ "<br />")
    else
      pyRstripBr acc

/-- Python `text.split("\n")`: split on every newline occurrence, keeping
empty fields. -/
def pySplitNl : List Char → List (List Char)
  | [] => [[]]
  | c :: rest =>
    match pySplitNl rest with
    | [] => [[c]]
    | g :: gs => if c = '\n' then [] :: g :: gs else (c :: g) :: gs

/-- `[t for t in text.split("\n") if t]`. -/
def pyChunks (text : String) : List String :=
  ((pySplitNl text.data).map (fun l => (⟨l⟩ : String))).filter (fun t => t ≠ "")

/-- `smart_trim(text, max_length=400)`: split on newlines, drop empty chunks,
run the accumulation loop starting from the empty string. -/
def smart_trim (text : String) (maxLength : Nat := 400) : String :=
  smartTrimGo maxLength (pyChunks text) ""

/-- Reference accumulation semantics described by the spec's truncation rule:
accumulate whole lines (each followed by one `"<br />"` marker) while the
running character count stays under the cap, stop at the first line that
would exceed it, discarding that line entirely. -/
def specTrimGo (maxLength : Nat) : List String → String → String
  | [], acc => acc
  | chunk :: rest, acc =>
    if acc.length + chunk.length < maxLength then
      specTrimGo maxLength rest (acc ++ chunk ++ "<br />")
    else
      acc

/-- Spec-described truncation on the same chunking as `smart_trim`. -/
def spec_trim (text : String) (maxLength : Nat := 400) : String :=
  specTrimGo maxLength (pyChunks text) ""

/-! ## HTML node model

A parsed BeautifulSoup tree: `tag` nodes carry a (lower-cased) element name,
an ordered attribute list (a value of `none` models a Python `None` attribute
value, as produced by `attrs.get` on a missing key), and children;
`text` nodes model `NavigableString`s, whose `name` is `None`. -/

inductive Node where
  | tag (name : String) (attrs : List (String × Option String)) (children : List Node)
  | text (s : String)
deriving Repr

/-- Python `tag.attrs.get(k)`: `None` both when the key is missing and when
the stored value is `None`. -/
def pyGet (a : List (String × Option String)) (k : String) : Option String :=
  (a.lookup k).bind id

/-- Python `tag[k]`: raises `KeyError` when the attribute is missing. -/
def getItem (a : List (String × Option String)) (k : String) :
    Except String (Option String) :=
  match a.lookup k with
  | some v => .ok v
  | none => .error "KeyError"

/-- `style = tag.attrs.get("style")` followed by `if style:` — the style is
used only when present and truthy (a present empty string is falsy). -/
def truthyStyle (a : List (String × Option String)) : Option String :=
  match pyGet a "style" with
  | some s => if s = "" then none else some s
  | none => none

/-- The attribute list added by `if style: t["style"] = style`. -/
def styleAttrs : Option String → List (String × Option String)
  | some s => [("style", some s)]
  | none => []

/-- bs4 attribute serialization: ` k="v"`, or a bare ` k` for a `None` value. -/
def serializeAttrs : List (String × Option String) → String
  | [] => ""
  | (k, some v) :: rest => " " ++ k ++ "=\"" ++ v ++ "\"" ++ serializeAttrs rest
  | (k, none) :: rest => " " ++ k ++ serializeAttrs rest

mutual

/-- `str(t)` on a single node: text verbatim, tags with their attributes and
children, empty elements `br`/`img` self-closed as bs4 renders them.
(Entity escaping of text is not modelled; no claim depends on it.) -/
def serializeNode : Node → String
  | .text s => s
  | .tag n a c =>
    if n = "br" ∨ n = "img" then "<" ++ n ++ serializeAttrs a ++ "/>"
    else "<" ++ n ++ serializeAttrs a ++ ">" ++ serializeList c ++ "</" ++ n ++ ">"

/-- `str(soup)` on a node list. -/
def serializeList : List Node → String
  | [] => ""
  | x :: rest => serializeNode x ++ serializeList rest

end

mutual

/-- The `img` descendants of one node (itself included), document order. -/
def allImgs : Node → List Node
  | .text _ => []
  | .tag n a c => (if n = "img" then [Node.tag n a c] else []) ++ allImgsList c

/-- `tree.find_all("img")`: all `img` descendants in document (pre-)order. -/
def allImgsList : List Node → List Node
  | [] => []
  | x :: rest => allImgs x ++ allImgsList rest

end

/-! ## `clean_tree` (src/api/src/create_book/parser.py, lines 12–62) -/

/-- The tag names of the first branch of the inner loop of `clean_tree`:
`child.name in [None, "b", "i", "u", "strong", "em"]` — a text child (name
`None`) is handled by the `Node.text` pattern instead. -/
def textishNames : List String := ["b", "i", "u", "strong", "em"]

/-- The inner loop of `clean_tree` over one paragraph wrapper's children.
`pChildren` is the wrapper's full (original) child list: when a text-like
child is hit, the wrapper itself — attributes cleared except for a truthy
style, children untouched — is appended and the loop breaks.  An `img` child
is lifted out as a fresh `img` node carrying `data-original-height`/`-width`
and the mandatory `src` (a missing `src` raises `KeyError`); a `br` child is
appended as a fresh `br` node.  Children with other names are skipped. -/
def processP (style : Option String) (pChildren : List Node) :
    List Node → Except String (List Node)
  | [] => .ok []
  | .text _ :: _ => .ok [Node.tag "p" (styleAttrs style) pChildren]
  | .tag n a _ :: rest =>
    if textishNames.contains n then .ok [Node.tag "p" (styleAttrs style) pChildren]
    else if n = "img" then
      match getItem a "src" with
      | .error e => .error e
      | .ok src =>
        match processP style pChildren rest with
        | .error e => .error e
        | .ok restOut =>
          .ok (Node.tag "img"
            ([("height", pyGet a "data-original-height"),
              ("width", pyGet a "data-original-width"),
              ("src", src)] ++ styleAttrs style) [] :: restOut)
    else if n = "br" then
      match processP style pChildren rest with
      | .error e => .error e
      | .ok restOut => .ok (Node.tag "br" (styleAttrs style) [] :: restOut)
    else processP style pChildren rest

/-- The outer loop of `clean_tree` over the parsed body's children: children
that are not `p` tags are skipped (`if tag.name != "p": continue`; a text
node's name is `None`). -/
def cleanBody : List Node → Except String (List Node)
  | [] => .ok []
  | .text _ :: rest => cleanBody rest
  | .tag n a c :: rest =>
    if n = "p" then
      match processP (truthyStyle a) c c with
      | .error e => .error e
      | .ok out =>
        match cleanBody rest with
        | .error e => .error e
        | .ok restOut => .ok (out ++ restOut)
    else cleanBody rest

/-- `clean_tree(title, id, body)`: the new soup parsed from the f-string
skeleton (whitespace text nodes exactly as in the source), with the section
filled by the rebuilt body.  The title is modelled as plain text (titles
containing markup are out of scope). -/
def clean_tree (title : String) (id : Nat) (body : List Node) :
    Except String (List Node) :=
  match cleanBody body with
  | .error e => .error e
  | .ok secChildren =>
    .ok [Node.text "\n    ",
         Node.tag "h1" [("class", some "chapter-title"), ("id", some (toString id))]
           [Node.text title],
         Node.text "\n    ",
         Node.tag "section" [("class", some "chapter-body")] secChildren,
         Node.text "\n"]

/-! ## Redundant-break removal
(src/api/src/create_book/utils.py, lines 39–42)

`for br in html.find_all("br"): if not br.next_sibling or
br.next_sibling.name in ["br", None]: br.decompose()`.

`find_all` yields breaks in document order and `decompose` only removes
nodes already visited, so each break is judged against its *original* next
sibling: it survives exactly when that sibling is an element tag other than
`br` (a text sibling has name `None`; an empty text sibling is also falsy). -/

/-- Does the break whose following siblings are `rest` survive the pass? -/
def brKeptB : List Node → Bool
  | .tag n _ _ :: _ => n != "br"
  | _ => false

/-- Is this node a `br` element? -/
def isBrB : Node → Bool
  | .tag n _ _ => n == "br"
  | .text _ => false

mutual

/-- The break-removal pass inside one node's children. -/
def remBrNode : Node → Node
  | .text s => .text s
  | .tag n a c => .tag n a (remBrList c)

/-- The break-removal pass over a sibling list: a break is decomposed when
`brKeptB` rejects its (original) following siblings; every surviving node has
the pass applied to its own children. -/
def remBrList : List Node → List Node
  | [] => []
  | x :: rest =>
    if isBrB x && !brKeptB rest then remBrList rest
    else remBrNode x :: remBrList rest

end

/-- Modelled from the spec sentence "a break child with no following sibling
(or whose only following sibling is itself a break) is dropped as redundant":
under this rule a break survives exactly when it has a following sibling that
is not itself a break (a text sibling counts as content). -/
def specBrKeptB : List Node → Bool
  | [] => false
  | .tag n _ _ :: _ => n != "br"
  | .text _ :: _ => true

mutual

/-- The spec-described pass inside one node's children. -/
def specRemBrNode : Node → Node
  | .text s => .text s
  | .tag n a c => .tag n a (specRemBrList c)

/-- The spec-described break-removal pass, for comparison with `remBrList`. -/
def specRemBrList : List Node → List Node
  | [] => []
  | x :: rest =>
    if isBrB x && !specBrKeptB rest then specRemBrList rest
    else specRemBrNode x :: specRemBrList rest

end

/-! ## Image resolver (src/api/src/create_book/parser.py, lines 65–87) -/

/-- `itertools.batched(l, 3)`: successive chunks of size 3, the last chunk
possibly shorter, never empty. -/
def batched3 : List α → List (List α)
  | [] => []
  | [a] => [[a]]
  | [a, b] => [[a, b]]
  | a :: b :: c :: rest => [a, b, c] :: batched3 rest

/-- Effectful list map in `Except`, mirroring a Python list comprehension
or loop that propagates the first raised exception. -/
def mapME (g : α → Except ε β) : List α → Except ε (List β)
  | [] => .ok []
  | x :: xs =>
    match g x with
    | .error e => .error e
    | .ok y =>
      match mapME g xs with
      | .error e => .error e
      | .ok ys => .ok (y :: ys)

/-- The `src` of one `img` element (`img["src"]`): `KeyError` when absent;
a `None`-valued `src` cannot arise from parsed markup and is mapped to an
error as well. -/
def srcOfImg : Node → Except String String
  | .tag _ a _ =>
    match a.lookup "src" with
    | some (some s) => .ok s
    | some none => .error "None url"
    | none => .error "KeyError"
  | .text _ => .error "not a tag"

/-- `[img["src"] for img in tree.find_all("img")]`. -/
def imageUrls (tree : List Node) : Except String (List String) :=
  mapME srcOfImg (allImgsList tree)

/-- `fetch_tree_images(tree)`: batch the urls in threes, fetch each batch
concurrently (`asyncio.gather` returns results in argument order, so one
batch contributes `chunk.map f`), and append batch results sequentially.
`f` is the per-url fetch, returning `none` when the response is not OK
(`parser.fetch_image`). -/
def fetch_tree_images (tree : List Node) (f : String → Option (List Nat)) :
    Except String (List (Option (List Nat))) :=
  match imageUrls tree with
  | .error e => .error e
  | .ok urls => .ok ((batched3 urls).foldl (fun acc chunk => acc ++ chunk.map f) [])

/-! ## Data model (src/api/src/create_book/models.py) — the fields the
orchestrator and generators read. -/

structure Part where
  id : Nat
  title : String
  deleted : Option Bool
deriving Repr, DecidableEq

structure User where
  username : String
  avatar : String
  description : String
deriving Repr, DecidableEq

structure Story where
  id : String
  title : String
  cover : String
  user : User
  parts : List Part
deriving Repr, DecidableEq

/-- `if "deleted" in part and part["deleted"]: continue` — a part is kept
unless the `deleted` key is present and truthy. -/
def partKept (p : Part) : Bool :=
  !(p.deleted == some true)

/-! ## Download orchestrator (src/api/src/main.py, `download_story`,
lines 95–159) and the EPUB chapter pairing
(src/api/src/create_book/generators/epub.py, `add_chapters`, lines 50–99). -/

/-- Oracles for one request's remote interactions: `fetchImage` is
`parser.fetch_image` (body bytes, or `none` when the response is not OK) —
used for the cover, the author avatar and chapter images alike; `archive`
gives the parsed raw body of each part id from the content zip. -/
structure FetchEnv where
  fetchImage : String → Option (List Nat)
  archive : Nat → List Node

inductive DownloadErr where
  | httpError (status : Nat)
  | parseError (msg : String)
deriving Repr, DecidableEq

inductive DFormat where
  | epub
  | pdf
deriving Repr, DecidableEq

/-- Python truthiness of `Optional[bytes]`: `None` and `b""` are falsy
(`if not cover_data`). -/
def pyFalsyBytes : Option (List Nat) → Bool
  | none => true
  | some b => b.isEmpty

/-- The part-tree construction loop of `download_story`: skip deleted parts,
normalize each remaining part's archived body. -/
def part_trees_of (s : Story) (env : FetchEnv) : Except String (List (List Node)) :=
  mapME (fun p => clean_tree p.title p.id (env.archive p.id)) (s.parts.filter partKept)

/-- Everything handed to a generator: metadata, normalized trees, cover
bytes, per-chapter image results, and (paginated variant) the author avatar. -/
structure CompileInput where
  story : Story
  partTrees : List (List Node)
  cover : List Nat
  images : List (List (Option (List Nat)))
  authorImage : Option (List Nat)

/-- `download_story(metadata, download_images, format, cookies)`:
cover fetch (resolution bumped `-256-` → `-512-`) checked for emptiness
first; parts archive normalized with deleted parts skipped; chapter images
resolved when requested; for the paginated variant the author avatar is
fetched and checked; finally the generator (`compileF`, standing for the
constructed generator's `compile` + `dump`) runs on the collected inputs. -/
def download_story (m : Story) (downloadImages : Bool) (format : DFormat)
    (env : FetchEnv) (compileF : CompileInput → β) : Except DownloadErr β :=
  match env.fetchImage (m.cover.replace "-256-" "-512-") with
  | none => .error (.httpError 422)
  | some cover =>
    if cover.isEmpty then .error (.httpError 422)
    else
      match part_trees_of m env with
      | .error e => .error (.parseError e)
      | .ok trees =>
        match (if downloadImages then
                mapME (fun t => fetch_tree_images t env.fetchImage) trees
              else .ok []) with
        | .error e => .error (.parseError e)
        | .ok images =>
          match format with
          | .epub => .ok (compileF ⟨m, trees, cover, images, none⟩)
          | .pdf =>
            match env.fetchImage (m.user.avatar.replace "-256-" "-512-") with
            | none => .error (.httpError 422)
            | some av =>
              if av.isEmpty then .error (.httpError 422)
              else .ok (compileF ⟨m, trees, cover, images, some av⟩)

/-- One chapter entry of the compiled book: the `epub.EpubHtml` title/uid and
the content tree it receives. -/
structure ChapterEntry where
  title : String
  id : Nat
  content : List Node
deriving Repr

/-- The pairing loop of `EPUBGenerator.add_chapters`:
`for cidx, (part, content) in enumerate(zip(self.data["parts"], contents))` —
the *full* part list (deleted parts included) is zipped against the
(filtered) content trees. -/
def add_chapters_entries (s : Story) (contents : List (List Node)) :
    List ChapterEntry :=
  (s.parts.zip contents).map (fun pc => ⟨pc.1.title, pc.1.id, pc.2⟩)

/-- The composition the EPUB path of `download_story` performs: build the
part trees (deleted parts skipped), then pair them with the story's parts. -/
def compile_story_epub (m : Story) (env : FetchEnv) :
    Except String (List ChapterEntry) :=
  (part_trees_of m env).map (add_chapters_entries m)

/-- The text of the first `h1` heading of a chapter tree (the chapter title
embedded by `clean_tree`). -/
def h1TextOf : List Node → Option String
  | [] => none
  | .tag n _ (Node.text s :: _) :: rest =>
    if n = "h1" then some s else h1TextOf rest
  | _ :: rest => h1TextOf rest

/-! ## Response cache selection (src/api/src/create_book/create_book.py)

`create_book/vars.py` builds the process-wide cache: a `FileBackend` or
`RedisBackend` with `expire_after=43200` (12 hours) when `USE_CACHE` is set
(its default is `True`, `config.py`), else `None`.  Each API call constructs
its session with `cache=None if cookies else cache`. -/

/-- A credential bag (authorization cookies). -/
abbrev Cookies := List (String × String)

/-- Python truthiness of `Optional[dict]`: `None` and an empty dict are
falsy. -/
def pyTruthyCookies : Option Cookies → Bool
  | none => false
  | some l => !l.isEmpty

/-- The only configuration a cache backend carries that the claims touch:
its expiry window in seconds. -/
structure CacheBackend where
  expireAfter : Nat
deriving Repr, DecidableEq

/-- The cache-relevant configuration of `config.py`. -/
structure WPDConfig where
  useCache : Bool
deriving Repr, DecidableEq

/-- `config.py` defaults: `USE_CACHE: bool = True`. -/
def defaultConfig : WPDConfig := ⟨true⟩

/-- `vars.py`: both the file backend and the redis backend are constructed
with `expire_after=43200`; with `USE_CACHE` unset there is no cache. -/
def sharedCacheOf (cfg : WPDConfig) : Option CacheBackend :=
  if cfg.useCache then some ⟨43200⟩ else none

/-- `fetch_story` (create_book.py line 114): `cache=None if cookies else cache`. -/
def fetch_story_session_cache (cookies : Option Cookies)
    (shared : Option CacheBackend) : Option CacheBackend :=
  if pyTruthyCookies cookies then none else shared

/-- `fetch_story_from_partId` (create_book.py line 91): same selection. -/
def fetch_story_from_partId_session_cache (cookies : Option Cookies)
    (shared : Option CacheBackend) : Option CacheBackend :=
  if pyTruthyCookies cookies then none else shared

/-- `fetch_story_content_zip` (create_book.py line 141): same selection. -/
def fetch_story_content_zip_session_cache (cookies : Option Cookies)
    (shared : Option CacheBackend) : Option CacheBackend :=
  if pyTruthyCookies cookies then none else shared

/-- The keyed response-cache state: request key → (stored-at time, payload). -/
abbrev CacheState := List (String × (Nat × List Nat))

/-- Outcome of one session GET: the response body, the cache state after the
call, and whether the network was hit. -/
structure SessionResult where
  response : List Nat
  state : CacheState
  networkCalled : Bool

/-- Modelled from the spec: the cached-session semantics of the HTTP cache
library (an external collaborator, not under src/) — "uncredentialed
requests consult a keyed cache with a fixed expiry window before making a
network call"; a session built with no cache always hits the network and
leaves the cache untouched; a stale or missing entry causes a network call
whose response is written back as a fresh entry. -/
def sessionGet (backend : Option CacheBackend) (st : CacheState) (now : Nat)
    (key : String) (network : List Nat) : SessionResult :=
  match backend with
  | none => ⟨network, st, true⟩
  | some b =>
    match st.lookup key with
    | some (t, payload) =>
      if now - t < b.expireAfter then ⟨payload, st, false⟩
      else ⟨network, (key, (now, network)) :: st, true⟩
    | none => ⟨network, (key, (now, network)) :: st, true⟩

/-! ## Retry policy (src/api/src/create_book/create_book.py)

`@backoff.on_exception(backoff.expo, ClientResponseError, max_time=15)` on
`fetch_story_from_partId`, `fetch_story`, `fetch_story_content_zip` and
`create_book.fetch_image`.  Only `ClientResponseError` is retried;
`StoryNotFoundError`/`PartNotFoundError` (exceptions.py) extend
`WattpadError`, not `ClientResponseError`, and propagate immediately. -/

inductive WPErr where
  | storyNotFound
  | partNotFound
  | clientResponseError (status : Nat)
deriving Repr, DecidableEq

/-- Is the error an instance of the retried exception class
(`ClientResponseError`)? -/
def isRetryable : WPErr → Bool
  | .clientResponseError _ => true
  | _ => false

/-- One remote API response as the fetchers see it. -/
structure ApiResponse where
  status : Nat
  errorCode : Option Nat
  payload : String
deriving Repr, DecidableEq

/-- One attempt of `fetch_story`: a 400 whose body carries `error_code`
1017 raises `StoryNotFoundError`; otherwise `raise_for_status` raises
`ClientResponseError` for any status ≥ 400; otherwise the payload parses. -/
def fetchStoryOnce (r : ApiResponse) : Except WPErr String :=
  if r.status = 400 ∧ r.errorCode = some 1017 then .error .storyNotFound
  else if 400 ≤ r.status then .error (.clientResponseError r.status)
  else .ok r.payload

/-- One attempt of `fetch_story_from_partId`: error code 1020 on a 400
raises `PartNotFoundError`; otherwise as `fetchStoryOnce`. -/
def fetchPartOnce (r : ApiResponse) : Except WPErr String :=
  if r.status = 400 ∧ r.errorCode = some 1020 then .error .partNotFound
  else if 400 ≤ r.status then .error (.clientResponseError r.status)
  else .ok r.payload

/-- Result of a retried call: the surfaced outcome, the number of attempts
made, and the total time spent waiting between attempts. -/
instance [DecidableEq ε] [DecidableEq α] : DecidableEq (Except ε α)
  | .ok a, .ok b => decidable_of_iff (a = b) (by simp)
  | .error a, .error b => decidable_of_iff (a = b) (by simp)
  | .ok _, .error _ => isFalse (fun h => Except.noConfusion h)
  | .error _, .ok _ => isFalse (fun h => Except.noConfusion h)

structure RetryResult (α : Type) where
  result : Except WPErr α
  attempts : Nat
  elapsed : Nat
deriving Repr

instance [DecidableEq α] : DecidableEq (RetryResult α) :=
  fun x y =>
    decidable_of_iff
      (x.result = y.result ∧ x.attempts = y.attempts ∧ x.elapsed = y.elapsed)
      (by cases x; cases y; simp)

/-- `backoff.on_exception(backoff.expo, ClientResponseError, max_time=t)`:
attempt `k` waits `2 ^ k` seconds before retrying, capped so that total
elapsed waiting never exceeds `maxTime`; once the ceiling is reached the
last error is re-raised.  Non-retryable errors are re-raised immediately.
(Attempt execution time is idealized to zero; only backoff waits count.) -/
def backoffRetry (maxTime : Nat) (f : Nat → Except WPErr α)
    (k : Nat) (elapsed : Nat) : RetryResult α :=
  match f k with
  | .ok a => ⟨.ok a, k + 1, elapsed⟩
  | .error e =>
    if isRetryable e then
      if elapsed < maxTime then
        backoffRetry maxTime f (k + 1) (elapsed + min (2 ^ k) (maxTime - elapsed))
      else ⟨.error e, k + 1, elapsed⟩
    else ⟨.error e, k + 1, elapsed⟩
termination_by maxTime - elapsed
decreasing_by
  have h1 : 1 ≤ 2 ^ k := Nat.one_le_two_pow
  omega

/-- The retry-wrapped `fetch_story`, over a sequence of per-attempt
responses. -/
def fetch_story_retry (rs : Nat → ApiResponse) : RetryResult String :=
  backoffRetry 15 (fun k => fetchStoryOnce (rs k)) 0 0

/-- The retry-wrapped `fetch_story_from_partId`. -/
def fetch_story_from_partId_retry (rs : Nat → ApiResponse) : RetryResult String :=
  backoffRetry 15 (fun k => fetchPartOnce (rs k)) 0 0

/-- One remote network call site of the pipeline and the `max_time` of its
backoff decorator, `none` when the call is not wrapped in a retry policy.
Translated from the decorators in src/api/src: the four client calls in
create_book/create_book.py carry `@backoff.on_exception(backoff.expo,
ClientResponseError, max_time=15)`; the login call (create_book.py
`fetch_cookies`), the image-resolver fetch (parser.py `fetch_image`) and the
EPUB generator's inline image GET (generators/epub.py `add_chapters`) carry
no decorator. -/
structure RemoteCall where
  name : String
  retryMaxTime : Option Nat
deriving Repr, DecidableEq

def remoteCallSites : List RemoteCall :=
  [⟨"create_book.fetch_cookies", none⟩,
   ⟨"create_book.fetch_story_from_partId", some 15⟩,
   ⟨"create_book.fetch_story", some 15⟩,
   ⟨"create_book.fetch_story_content_zip", some 15⟩,
   ⟨"create_book.fetch_image", some 15⟩,
   ⟨"parser.fetch_image", none⟩,
   ⟨"generators.epub.add_chapters_image_get", none⟩]

/-! ## `slugify` (src/api/src/create_book/utils.py, lines 88–108),
`allow_unicode=False` as used by `handle_download` (main.py line 308). -/

/-- Python `\w` on the ASCII text produced by the encode/decode step. -/
def isPyWordChar (c : Char) : Bool :=
  c.isAlpha || c.isDigit || c = '_'

/-- Python `\s` over ASCII: space, tab, newline, vertical tab, form feed,
carriage return. -/
def isPySpace (c : Char) : Bool :=
  c = ' ' || c = '\t' || c = '\n' || c = '\x0b' || c = '\x0c' || c = '\r'

/-- `.encode("ascii", "ignore").decode("ascii")`: drop non-ASCII characters. -/
def asciiIgnore (l : List Char) : List Char :=
  l.filter (fun c => c.toNat < 128)

/-- `re.sub(r"[^\w\s-]", "", v)`: keep word characters, whitespace, hyphens. -/
def subNonWord (l : List Char) : List Char :=
  l.filter (fun c => isPyWordChar c || isPySpace c || c = '-')

/-- `re.sub(r"[-\s]+", "-", v)`: replace each maximal run of hyphens and
whitespace by a single hyphen.  The boolean tracks whether the previous
character was part of such a run. -/
def collapseRuns : Bool → List Char → List Char
  | _, [] => []
  | inRun, c :: rest =>
    if isPySpace c || c = '-' then
      (if inRun then [] else ['-']) ++ collapseRuns true rest
    else c :: collapseRuns false rest

/-- Is the character stripped by `.strip("-_")`? -/
def isDashUnderscore (c : Char) : Bool :=
  c = '-' || c = '_'

/-- Python `.strip("-_")`: drop leading and trailing runs of `-`/`_`. -/
def stripDashUnderscore (l : List Char) : List Char :=
  ((l.dropWhile isDashUnderscore).reverse.dropWhile isDashUnderscore).reverse

/-- `slugify(value, allow_unicode=False)`.  The `unicodedata.normalize
("NFKD", ·)` step is kept abstract as a parameter `norm`: every claim about
the output holds for an arbitrary normalization, because the ASCII filter
runs right after it. -/
def slugify (norm : String → String) (value : String) : String :=
  let v1 := asciiIgnore (norm value).data
  let v2 := subNonWord (v1.map Char.toLower)
  let v3 := collapseRuns false v2
  ⟨stripDashUnderscore v3⟩

/-! ## Predicates used to state the claims -/

/-- Is this node a paragraph element? -/
def isPB : Node → Bool
  | .tag n _ _ => n == "p"
  | .text _ => false

/-- The invariant claimed for image nodes: an `img` element carries a
present, non-`None`, non-empty `src`; non-image nodes satisfy it trivially. -/
def imgOkB : Node → Bool
  | .tag n a _ =>
    if n == "img" then
      match a.lookup "src" with
      | some (some s) => s != ""
      | _ => false
    else true
  | .text _ => true

/-- The output of `clean_tree` for a chapter whose rebuilt body is empty. -/
def emptyChapterSkeleton (title : String) (id : Nat) : List Node :=
  [Node.text "\n    ",
   Node.tag "h1" [("class", some "chapter-title"), ("id", some (toString id))]
     [Node.text title],
   Node.text "\n    ",
   Node.tag "section" [("class", some "chapter-body")] [],
   Node.text "\n"]

/-- The character set the slugified filename may contain: lowercase ASCII
letters, digits, hyphen, underscore. -/
def slugCharOkB (c : Char) : Bool :=
  (('a' ≤ c && c ≤ 'z') || c.isDigit || c = '-' || c = '_')

/-- Every image node in a forest satisfies the non-empty-src invariant. -/
def ImgsOk (l : List Node) : Prop :=
  ∀ n ∈ allImgsList l, imgOkB n = true


/-! # Claim theorems -/

/-- C3: the claim says `smart_trim` accumulates whole lines under the cap and
never returns a partial line.  Evaluating the embedded source at the failing
inputs: on "ab\ncd" (cap 400) both lines fit, yet the code returns only the
last line with its marker, while the spec-described accumulation
(`spec_trim`) returns both; and on "herb\nxxxxxxxxxx" (cap 10) the
`rstrip("<br />")` strips by character set and returns "he", a strict prefix
of the line "herb" — a partial line. -/
theorem C3_smart_trim_eval :
    smart_trim "ab\ncd" 400 = "cd<br />" ∧
    spec_trim "ab\ncd" 400 = "ab<br />cd<br />" ∧
    smart_trim "herb\nxxxxxxxxxx" 10 = "he" :=
  ⟨rfl, rfl, rfl⟩

/-- C9: evaluating the compiled-chapter pipeline at a story whose first
chapter is flagged deleted.  `download_story` filters the deleted part out of
the content trees, but `EPUBGenerator.add_chapters` zips the *full* part list
against the filtered trees: the single compiled entry carries the deleted
chapter's title "A" and id 1 while containing the normalized body of chapter
"B" (its embedded `h1` heading says "B").  The claim that every entry carries
the title and id of the chapter whose body it contains therefore fails. -/
theorem C9_deleted_chapter_misaligns_pairing :
    (compile_story_epub
        ⟨"372219540", "WPD Test", "cover", ⟨"u", "a", "d"⟩,
          [⟨1, "A", some true⟩, ⟨2, "B", none⟩]⟩
        ⟨fun _ => none, fun _ => []⟩).map
      (List.map fun en => (en.title, en.id, h1TextOf en.content)) =
      .ok [("A", 1, some "B")] ∧
    ("A" : String) ≠ "B" :=
  ⟨rfl, by decide⟩

/-- C1 counterexample: normalizing the already-normalized tree's serialized
form is not byte-identical.  `clean_tree` keeps only top-level `p` wrappers,
but its own output has only `h1` and `section` at top level, so the second
pass empties the body section and the serializations differ. -/
theorem C1_not_byte_idempotent :
    clean_tree "t" 1 [Node.tag "p" [] [Node.text "hello"]] =
      .ok [Node.text "\n    ",
           Node.tag "h1" [("class", some "chapter-title"), ("id", some "1")]
             [Node.text "t"],
           Node.text "\n    ",
           Node.tag "section" [("class", some "chapter-body")]
             [Node.tag "p" [] [Node.text "hello"]],
           Node.text "\n"] ∧
    clean_tree "t" 1
      [Node.text "\n    ",
       Node.tag "h1" [("class", some "chapter-title"), ("id", some "1")]
         [Node.text "t"],
       Node.text "\n    ",
       Node.tag "section" [("class", some "chapter-body")]
         [Node.tag "p" [] [Node.text "hello"]],
       Node.text "\n"] = .ok (emptyChapterSkeleton "t" 1) ∧
    serializeList
        [Node.text "\n    ",
         Node.tag "h1" [("class", some "chapter-title"), ("id", some "1")]
           [Node.text "t"],
         Node.text "\n    ",
         Node.tag "section" [("class", some "chapter-body")]
           [Node.tag "p" [] [Node.text "hello"]],
         Node.text "\n"] ≠
      serializeList (emptyChapterSkeleton "t" 1) :=
  ⟨rfl, rfl, by decide⟩

/-- Helper: a body with no top-level paragraph wrapper rebuilds to nothing. -/
theorem cleanBody_of_no_p (body : List Node)
    (h : ∀ n ∈ body, isPB n = false) : cleanBody body = .ok [] := by
  induction body with
  | nil => rfl
  | cons x rest ih =>
    cases x with
    | text s =>
      simpa [cleanBody] using ih (fun n hn => h n (List.mem_cons_of_mem _ hn))
    | tag n a c =>
      have hx := h _ (List.mem_cons_self _ _)
      simp [isPB] at hx
      simpa [cleanBody, hx] using ih (fun n hn => h n (List.mem_cons_of_mem _ hn))

/-- C1: the normalizer is deterministic (it is a pure function of its input),
but re-normalization empties the body: the top level of every `clean_tree`
output contains no paragraph wrapper, and on any body without top-level
paragraph wrappers `clean_tree` returns the empty chapter skeleton — so
byte-identity of re-normalization holds only when the normalized body was
already empty. -/
theorem C1_deterministic_and_renormalization_empties_body :
    (∀ title id body, clean_tree title id body = clean_tree title id body) ∧
    (∀ title id body L, clean_tree title id body = .ok L →
      ∀ n ∈ L, isPB n = false) ∧
    (∀ title id body, (∀ n ∈ body, isPB n = false) →
      clean_tree title id body = .ok (emptyChapterSkeleton title id)) := by
  refine ⟨fun _ _ _ => rfl, ?_, ?_⟩
  · intro title id body L hL n hn
    cases hcb : cleanBody body with
    | error e => simp [clean_tree, hcb] at hL
    | ok sc =>
      simp [clean_tree, hcb] at hL
      subst hL
      simp [List.mem_cons] at hn
      rcases hn with h | h | h | h | h <;> subst h <;> rfl
  · intro title id body h
    simp [clean_tree, cleanBody_of_no_p body h, emptyChapterSkeleton]

/-- C1 witness: instantiating the third conjunct at a body made of one text
node. -/
theorem C1_witness :
    clean_tree "t" 2 [Node.text "x"] = .ok (emptyChapterSkeleton "t" 2) :=
  C1_deterministic_and_renormalization_empties_body.2.2 "t" 2 [Node.text "x"]
    (by decide)

/-- C2 counterexample: an input image with a present but *empty* `src`
attribute passes through `clean_tree` unchanged, so the output tree contains
an image node with an empty source locator. -/
theorem C2_empty_src_survives :
    clean_tree "t" 1 [Node.tag "p" [] [Node.tag "img" [("src", some "")] []]] =
      .ok [Node.text "\n    ",
           Node.tag "h1" [("class", some "chapter-title"), ("id", some "1")]
             [Node.text "t"],
           Node.text "\n    ",
           Node.tag "section" [("class", some "chapter-body")]
             [Node.tag "img"
               [("height", none), ("width", none), ("src", some "")] []],
           Node.text "\n"] ∧
    ¬ (∀ n ∈ allImgsList
          [Node.text "\n    ",
           Node.tag "h1" [("class", some "chapter-title"), ("id", some "1")]
             [Node.text "t"],
           Node.text "\n    ",
           Node.tag "section" [("class", some "chapter-body")]
             [Node.tag "img"
               [("height", none), ("width", none), ("src", some "")] []],
           Node.text "\n"], imgOkB n = true) :=
  ⟨rfl, by decide⟩

/-- Helper: `find_all` distributes over sibling-list concatenation. -/
theorem allImgsList_append (xs ys : List Node) :
    allImgsList (xs ++ ys) = allImgsList xs ++ allImgsList ys := by
  induction xs with
  | nil => simp [allImgsList]
  | cons x rest ih => simp [allImgsList, ih]

/-- Helper: the invariant restricted to the tail of a sibling list. -/
theorem ImgsOk_of_cons {x : Node} {rest : List Node} (h : ImgsOk (x :: rest)) :
    ImgsOk rest := by
  intro n hn
  apply h
  show n ∈ allImgs x ++ allImgsList rest
  exact List.mem_append_right _ hn

/-- Helper: the inner loop of `clean_tree` preserves the image invariant:
all its output images either are the lifted copies of input images (same
`src`) or sit inside the re-emitted wrapper (the input's own subtrees). -/
theorem processP_imgs {style : Option String} {all : List Node} :
    ∀ {rest out : List Node}, ImgsOk all → ImgsOk rest →
      processP style all rest = .ok out → ImgsOk out := by
  intro rest
  induction rest with
  | nil =>
    intro out _ _ hp
    simp [processP] at hp
    subst hp
    intro n hn
    simp [allImgsList] at hn
  | cons x rest ih =>
    intro out hall hrest hp
    have hrest' : ImgsOk rest := ImgsOk_of_cons hrest
    cases x with
    | text s =>
      simp [processP] at hp
      subst hp
      intro m hm
      have : m ∈ allImgsList all := by simpa [allImgsList, allImgs] using hm
      exact hall m this
    | tag n a c =>
      by_cases h1 : n ∈ textishNames
      · simp [processP, h1] at hp
        subst hp
        intro m hm
        have : m ∈ allImgsList all := by simpa [allImgsList, allImgs] using hm
        exact hall m this
      · by_cases h2 : n = "img"
        · subst h2
          have hhead : imgOkB (Node.tag "img" a c) = true := by
            apply hrest
            show Node.tag "img" a c ∈ allImgs (Node.tag "img" a c) ++ allImgsList rest
            simp [allImgs]
          rcases hlk : a.lookup "src" with _ | v
          · simp [imgOkB, hlk] at hhead
          · rcases v with _ | sv
            · simp [imgOkB, hlk] at hhead
            · have hsv : (sv != "") = true := by simpa [imgOkB, hlk] using hhead
              simp [processP, h1, getItem, hlk] at hp
              cases hrec : processP style all rest with
              | error e => rw [hrec] at hp; simp at hp
              | ok ro =>
                rw [hrec] at hp
                simp at hp
                subst hp
                intro m hm
                have hm2 : m = Node.tag "img"
                    ([("height", pyGet a "data-original-height"),
                      ("width", pyGet a "data-original-width"),
                      ("src", some sv)] ++ styleAttrs style) [] ∨
                    m ∈ allImgsList ro := by
                  simpa [allImgsList, allImgs] using hm
                rcases hm2 with hmh | hmt
                · subst hmh
                  simp [imgOkB, List.lookup, hsv]
                · exact ih hall hrest' hrec m hmt
        · by_cases h3 : n = "br"
          · subst h3
            simp [processP, h1] at hp
            cases hrec : processP style all rest with
            | error e => rw [hrec] at hp; simp at hp
            | ok ro =>
              rw [hrec] at hp
              simp at hp
              subst hp
              intro m hm
              have hmt : m ∈ allImgsList ro := by
                simpa [allImgsList, allImgs] using hm
              exact ih hall hrest' hrec m hmt
          · simp [processP, h1, h2, h3] at hp
            exact ih hall hrest' hp

/-- Helper: the outer loop of `clean_tree` preserves the image invariant. -/
theorem cleanBody_imgs :
    ∀ {body out : List Node}, ImgsOk body → cleanBody body = .ok out →
      ImgsOk out := by
  intro body
  induction body with
  | nil =>
    intro out _ hp
    simp [cleanBody] at hp
    subst hp
    intro n hn
    simp [allImgsList] at hn
  | cons x rest ih =>
    intro out hbody hp
    have hrest : ImgsOk rest := ImgsOk_of_cons hbody
    cases x with
    | text s =>
      simp [cleanBody] at hp
      exact ih hrest hp
    | tag n a c =>
      by_cases hn : n = "p"
      · subst hn
        have hc : ImgsOk c := by
          intro m hm
          apply hbody
          show m ∈ allImgs (Node.tag "p" a c) ++ allImgsList rest
          apply List.mem_append_left
          simpa [allImgs] using hm
        simp [cleanBody] at hp
        rcases h1 : processP (truthyStyle a) c c with e | o1
        · rw [h1] at hp; simp at hp
        · rw [h1] at hp
          rcases h2 : cleanBody rest with e | o2
          · rw [h2] at hp; simp at hp
          · rw [h2] at hp
            simp at hp
            subst hp
            intro m hm
            rw [allImgsList_append] at hm
            rcases List.mem_append.mp hm with hm1 | hm2
            · exact processP_imgs hc hc h1 m hm1
            · exact ih hrest h2 m hm2
      · simp [cleanBody, hn] at hp
        exact ih hrest hp

/-- C2: amended invariant — `clean_tree` copies each image's `src` verbatim,
so every image node of the output has a present non-empty source locator
*provided* every image of the raw input does; the counterexample shows the
unconditional claim fails for an input image with an empty `src`. -/
theorem C2_img_src_invariant_preserved :
    ∀ (title : String) (id : Nat) (body L : List Node),
      clean_tree title id body = .ok L → ImgsOk body → ImgsOk L := by
  intro title id body L hL hbody
  cases hcb : cleanBody body with
  | error e => simp [clean_tree, hcb] at hL
  | ok sc =>
    simp [clean_tree, hcb] at hL
    subst hL
    intro n hn
    rw [show
        allImgsList
          [Node.text "\n    ",
           Node.tag "h1" [("class", some "chapter-title"), ("id", some (toString id))]
             [Node.text title],
           Node.text "\n    ",
           Node.tag "section" [("class", some "chapter-body")] sc,
           Node.text "\n"] = allImgsList sc
      from by simp [allImgsList, allImgs]] at hn
    exact cleanBody_imgs hbody hcb n hn

/-- C2 witness: the amended theorem applied to a one-image chapter with a
non-empty source. -/
theorem C2_witness :
    imgOkB (Node.tag "img" [("height", none), ("width", none), ("src", some "u")] [])
      = true :=
  C2_img_src_invariant_preserved "t" 1
    [Node.tag "p" [] [Node.tag "img" [("src", some "u")] []]]
    [Node.text "\n    ",
     Node.tag "h1" [("class", some "chapter-title"), ("id", some "1")]
       [Node.text "t"],
     Node.text "\n    ",
     Node.tag "section" [("class", some "chapter-body")]
       [Node.tag "img" [("height", none), ("width", none), ("src", some "u")] []],
     Node.text "\n"] rfl
    (by intro n hn; simp [allImgsList, allImgs] at hn; subst hn; rfl)
    _ (List.mem_singleton_self _)

/-- C4 counterexample: a break followed by *text* content.  The claim (and
the spec) say such a break is retained; the code drops it, because
`br.next_sibling.name in ["br", None]` is true for a text sibling (whose
`name` is `None`).  The spec-modelled pass keeps the break; the
serializations differ. -/
theorem C4_break_before_text_dropped :
    remBrList [Node.tag "br" [] [], Node.text "b"] = [Node.text "b"] ∧
    specRemBrList [Node.tag "br" [] [], Node.text "b"] =
      [Node.tag "br" [] [], Node.text "b"] ∧
    serializeList (remBrList [Node.tag "br" [] [], Node.text "b"]) ≠
      serializeList (specRemBrList [Node.tag "br" [] [], Node.text "b"]) :=
  ⟨rfl, rfl, by decide⟩

/-- C4: amended characterization.  In the removal pass a break is dropped
iff it has no following sibling, or its immediately following sibling is a
break *or a text node*; it is retained only when followed by a non-break
element tag.  (Second conjunct: the `clean_tree` normalizer never drops a
break child at all — it re-emits every break unconditionally.) -/
theorem C4_break_drop_characterization :
    (∀ (a : List (String × Option String)) (c rest : List Node),
      remBrList (Node.tag "br" a c :: rest) =
        (match rest with
         | Node.tag n _ _ :: _ =>
           if n = "br" then remBrList rest
           else Node.tag "br" a (remBrList c) :: remBrList rest
         | _ => remBrList rest)) ∧
    (∀ (style : Option String) (pc : List Node) (a : List (String × Option String))
        (ch rest : List Node),
      processP style pc (Node.tag "br" a ch :: rest) =
        (processP style pc rest).map
          (fun restOut => Node.tag "br" (styleAttrs style) [] :: restOut)) := by
  constructor
  · intro a c rest
    cases rest with
    | nil => simp [remBrList, isBrB, brKeptB, remBrNode]
    | cons x r =>
      cases x with
      | text s => simp [remBrList, isBrB, brKeptB, remBrNode]
      | tag n a2 c2 =>
        by_cases hn : n = "br" <;>
          simp [remBrList, isBrB, brKeptB, remBrNode, hn]
  · intro style pc a ch rest
    have h1 : "br" ∉ textishNames := by decide
    simp [processP, h1]
    cases hrec : processP style pc rest <;> simp [Except.map]

/-- C5: for all three remote-source calls (fetch story, fetch story from
part id, fetch content archive), the session-cache selection
`cache=None if cookies else cache` means: present (truthy) credentials
construct the session with no cache, and a no-cache session neither reads
nor writes the shared cache state (response comes from the network, state
unchanged); uncredentialed calls hand the session the shared backend, which
under the default configuration carries a 43200-second (12-hour) expiry, and
a fresh cached entry is returned without a network call. -/
theorem C5_credentialed_requests_bypass_cache :
    ∀ (shared : Option CacheBackend) (st : CacheState) (now : Nat)
      (key : String) (net : List Nat) (cookies : Option Cookies),
      (pyTruthyCookies cookies = true →
        fetch_story_session_cache cookies shared = none ∧
        fetch_story_from_partId_session_cache cookies shared = none ∧
        fetch_story_content_zip_session_cache cookies shared = none ∧
        sessionGet none st now key net = ⟨net, st, true⟩) ∧
      (pyTruthyCookies cookies = false →
        fetch_story_session_cache cookies shared = shared ∧
        fetch_story_from_partId_session_cache cookies shared = shared ∧
        fetch_story_content_zip_session_cache cookies shared = shared ∧
        sharedCacheOf defaultConfig = some ⟨43200⟩ ∧
        43200 = 12 * 60 * 60 ∧
        (∀ t payload, st.lookup key = some (t, payload) → now - t < 43200 →
          sessionGet (sharedCacheOf defaultConfig) st now key net =
            ⟨payload, st, false⟩)) := by
  intro shared st now key net cookies
  constructor
  · intro h
    refine ⟨?_, ?_, ?_, rfl⟩ <;>
      simp [fetch_story_session_cache, fetch_story_from_partId_session_cache,
        fetch_story_content_zip_session_cache, h]
  · intro h
    refine ⟨?_, ?_, ?_, rfl, rfl, ?_⟩
    · simp [fetch_story_session_cache, h]
    · simp [fetch_story_from_partId_session_cache, h]
    · simp [fetch_story_content_zip_session_cache, h]
    · intro t payload hlk hfresh
      simp [sessionGet, sharedCacheOf, defaultConfig, hlk, hfresh]

/-- C5 witness: a concrete credentialed call bypasses the cache, and a
concrete uncredentialed call is served from a fresh cache entry without a
network call. -/
theorem C5_witness :
    sessionGet none [("k", (0, [7]))] 100 "k" [9] = ⟨[9], [("k", (0, [7]))], true⟩ ∧
    sessionGet (sharedCacheOf defaultConfig) [("k", (0, [7]))] 100 "k" [9] =
      ⟨[7], [("k", (0, [7]))], false⟩ :=
  ⟨(C5_credentialed_requests_bypass_cache none [("k", (0, [7]))] 100 "k" [9]
      (some [("token", "x")])).1 rfl |>.2.2.2,
   (C5_credentialed_requests_bypass_cache none [("k", (0, [7]))] 100 "k" [9]
      none).2 rfl |>.2.2.2.2.2 0 [7] rfl (by decide)⟩

/-- Helper: the retry combinator always surfaces the outcome of its last
attempt, and its accumulated backoff waiting never exceeds the ceiling. -/
theorem backoffRetry_last_and_ceiling :
    ∀ (fuel : Nat) (f : Nat → Except WPErr α) (k e : Nat), 15 - e ≤ fuel →
      (backoffRetry 15 f k e).result = f ((backoffRetry 15 f k e).attempts - 1) ∧
      (e ≤ 15 → (backoffRetry 15 f k e).elapsed ≤ 15) := by
  intro fuel
  induction fuel with
  | zero =>
    intro f k e he
    rw [backoffRetry]
    cases hf : f k with
    | ok a => simp [hf]
    | error err =>
      by_cases hr : isRetryable err
      · have hel : ¬ (e < 15) := by omega
        simp [hf, hr, hel]
      · simp [hf, hr]
  | succ fuel ih =>
    intro f k e he
    rw [backoffRetry]
    cases hf : f k with
    | ok a => simp [hf]
    | error err =>
      by_cases hr : isRetryable err
      · by_cases hel : e < 15
        · have h2 : 1 ≤ 2 ^ k := Nat.one_le_two_pow
          have hrec := ih f (k + 1) (e + min (2 ^ k) (15 - e)) (by omega)
          simp only [hf, hr, hel, if_true, if_pos]
          exact ⟨hrec.1, fun _ => hrec.2 (by omega)⟩
        · simp [hf, hr, hel]
      · simp [hf, hr]

/-- C6 counterexample: not every remote network call is wrapped in the
retry policy — the image-resolver fetch (`parser.fetch_image`), the login
call (`fetch_cookies`) and the EPUB generator's inline image GET carry no
backoff decorator. -/
theorem C6_unwrapped_call_exists :
    (⟨"parser.fetch_image", none⟩ : RemoteCall) ∈ remoteCallSites ∧
    ¬ (∀ c ∈ remoteCallSites, c.retryMaxTime = some 15) :=
  ⟨by decide, by decide⟩

/-- C6: amended.  The four remote-source-client calls in create_book.py are
exactly the wrapped ones (expo backoff, 15-second ceiling); a 400 response
carrying error code 1017 (story) / 1020 (part) is translated to
`StoryNotFoundError`/`PartNotFoundError` on the very first attempt and never
retried (one attempt, no waiting); and the retry combinator always surfaces
the last attempt's outcome with total backoff waiting at most 15 seconds. -/
theorem C6_retry_policy :
    (∀ rs : Nat → ApiResponse,
      (rs 0).status = 400 → (rs 0).errorCode = some 1017 →
      fetch_story_retry rs = ⟨.error .storyNotFound, 1, 0⟩) ∧
    (∀ rs : Nat → ApiResponse,
      (rs 0).status = 400 → (rs 0).errorCode = some 1020 →
      fetch_story_from_partId_retry rs = ⟨.error .partNotFound, 1, 0⟩) ∧
    (∀ f : Nat → Except WPErr String,
      (backoffRetry 15 f 0 0).result = f ((backoffRetry 15 f 0 0).attempts - 1) ∧
      (backoffRetry 15 f 0 0).elapsed ≤ 15) ∧
    (∀ c ∈ remoteCallSites,
      c.retryMaxTime = some 15 ↔
        c.name ∈ ["create_book.fetch_story_from_partId", "create_book.fetch_story",
          "create_book.fetch_story_content_zip", "create_book.fetch_image"]) := by
  refine ⟨?_, ?_, ?_, by decide⟩
  · intro rs h1 h2
    have honce : fetchStoryOnce (rs 0) = .error .storyNotFound := by
      simp [fetchStoryOnce, h1, h2]
    rw [fetch_story_retry, backoffRetry]
    simp [honce, isRetryable]
  · intro rs h1 h2
    have honce : fetchPartOnce (rs 0) = .error .partNotFound := by
      simp [fetchPartOnce, h1, h2]
    rw [fetch_story_from_partId_retry, backoffRetry]
    simp [honce, isRetryable]
  · intro f
    have h := backoffRetry_last_and_ceiling 15 f 0 0 (by omega)
    exact ⟨h.1, h.2 (by omega)⟩

/-- C6 witness: a first response marked 1017 is translated and not retried. -/
theorem C6_witness :
    fetch_story_retry (fun _ => ⟨400, some 1017, ""⟩) =
      ⟨.error .storyNotFound, 1, 0⟩ :=
  C6_retry_policy.1 (fun _ => ⟨400, some 1017, ""⟩) rfl rfl

/-- Helper: folding batch results sequentially, each batch fetched in
argument order, reconstructs exactly the per-url map in tree order. -/
theorem batched3_foldl_map {α β : Type} (g : α → β) :
    ∀ (l : List α) (init : List β),
      (batched3 l).foldl (fun acc c => acc ++ c.map g) init = init ++ l.map g := by
  intro l
  induction l using batched3.induct with
  | case1 => intro init; simp [batched3]
  | case2 a => intro init; simp [batched3]
  | case3 a b => intro init; simp [batched3]
  | case4 a b c rest ih => intro init; simp [batched3, ih]

/-- Helper: every batch is non-empty and holds at most three urls. -/
theorem batched3_chunk_bounds {α : Type} :
    ∀ (l : List α), ∀ c ∈ batched3 l, c ≠ [] ∧ c.length ≤ 3 := by
  intro l
  induction l using batched3.induct with
  | case1 => intro c hc; simp [batched3] at hc
  | case2 a => intro c hc; simp [batched3] at hc; subst hc; simp
  | case3 a b => intro c hc; simp [batched3] at hc; subst hc; simp
  | case4 a b c rest ih =>
    intro ch hch
    simp [batched3] at hch
    rcases hch with h | h
    · subst h; simp
    · exact ih ch h

/-- Helper: a successful effectful map produces one output per input. -/
theorem mapME_ok_length {α β : Type} {g : α → Except String β} :
    ∀ {l : List α} {out : List β}, mapME g l = .ok out → out.length = l.length := by
  intro l
  induction l with
  | nil => intro out h; simp [mapME] at h; subst h; rfl
  | cons x xs ih =>
    intro out h
    simp [mapME] at h
    cases hx : g x with
    | error e => rw [hx] at h; simp at h
    | ok y =>
      rw [hx] at h
      cases hxs : mapME g xs with
      | error e => rw [hxs] at h; simp at h
      | ok ys =>
        rw [hxs] at h
        simp at h
        subst h
        simp [ih hxs]

/-- Helper (shared with the orchestrator claims): when every image has a
source, the resolver returns exactly the per-url fetch results. -/
theorem fetch_tree_images_ok {tree : List Node} {urls : List String}
    (f : String → Option (List Nat)) (h : imageUrls tree = .ok urls) :
    fetch_tree_images tree f = .ok (urls.map f) := by
  simp [fetch_tree_images, h, batched3_foldl_map]

/-- C7: the resolver returns one entry per image node in tree order — entry
`i` is exactly the fetch result of source `i` (`none` exactly when that fetch
failed), a single failure affects no other entry and never fails the
chapter (the call still returns `.ok`); urls are partitioned into batches of
at most 3, batches processed sequentially. -/
theorem C7_resolver_order_and_batches :
    ∀ (tree : List Node) (f : String → Option (List Nat)) (urls : List String),
      imageUrls tree = .ok urls →
      fetch_tree_images tree f = .ok (urls.map f) ∧
      urls.length = (allImgsList tree).length ∧
      (∀ i, (urls.map f).get? i = (urls.get? i).map f) ∧
      (∀ c ∈ batched3 urls, c ≠ [] ∧ c.length ≤ 3) := by
  intro tree f urls h
  refine ⟨fetch_tree_images_ok f h, mapME_ok_length h, ?_, batched3_chunk_bounds urls⟩
  intro i
  simp [List.getElem?_map]

/-- C7 witness: a one-image tree whose fetch fails still resolves to `.ok`
with a `none` entry. -/
theorem C7_witness :
    fetch_tree_images [Node.tag "img" [("src", some "u")] []] (fun _ => none) =
      .ok [none] :=
  (C7_resolver_order_and_batches [Node.tag "img" [("src", some "u")] []]
    (fun _ => none) ["u"] rfl).1

/-- Helper: an effectful map succeeds when every element succeeds. -/
theorem mapME_ok_exists {α β : Type} {g : α → Except String β} :
    ∀ {l : List α}, (∀ x ∈ l, ∃ y, g x = .ok y) → ∃ out, mapME g l = .ok out := by
  intro l
  induction l with
  | nil => intro _; exact ⟨[], rfl⟩
  | cons x xs ih =>
    intro h
    obtain ⟨y, hy⟩ := h x (List.mem_cons_self _ _)
    obtain ⟨ys, hys⟩ := ih (fun z hz => h z (List.mem_cons_of_mem _ hz))
    exact ⟨y :: ys, by simp [mapME, hy, hys]⟩

/-- C8: a cover fetch returning no bytes (`None` or empty) terminates the
request with a 422 before any generator work — for *every* possible
generator `compileF`; in the paginated (pdf) variant an empty author-avatar
fetch likewise yields a 422; and when cover (and avatar, for pdf) bytes are
present, the request succeeds with the generator's output no matter how many
per-chapter image fetches fail (the fetch oracle `env.fetchImage` is
arbitrary, failures included). -/
theorem C8_cover_fatal_images_not :
    ∀ (β : Type) (m : Story) (di : Bool) (fmt : DFormat) (env : FetchEnv)
      (compileF : CompileInput → β),
      (pyFalsyBytes (env.fetchImage (m.cover.replace "-256-" "-512-")) = true →
        download_story m di fmt env compileF = .error (.httpError 422)) ∧
      (∀ (cover : List Nat) (trees : List (List Node)),
        env.fetchImage (m.cover.replace "-256-" "-512-") = some cover →
        cover.isEmpty = false →
        part_trees_of m env = .ok trees →
        (∀ t ∈ trees, ∃ urls, imageUrls t = .ok urls) →
        (fmt = .pdf →
          pyFalsyBytes (env.fetchImage (m.user.avatar.replace "-256-" "-512-")) = true →
          download_story m di fmt env compileF = .error (.httpError 422)) ∧
        (fmt = .epub → ∃ images,
          download_story m di fmt env compileF =
            .ok (compileF ⟨m, trees, cover, images, none⟩)) ∧
        (∀ av : List Nat, fmt = .pdf →
          env.fetchImage (m.user.avatar.replace "-256-" "-512-") = some av →
          av.isEmpty = false →
          ∃ images,
            download_story m di fmt env compileF =
              .ok (compileF ⟨m, trees, cover, images, some av⟩))) := by
  intro β m di fmt env compileF
  constructor
  · intro hcov
    cases hc : env.fetchImage (m.cover.replace "-256-" "-512-") with
    | none => simp [download_story, hc]
    | some b =>
      rw [hc] at hcov
      simp [pyFalsyBytes] at hcov
      simp [download_story, hc, hcov]
  · intro cover trees hcov hne htrees hsrc
    have himg : ∃ images,
        (if di then mapME (fun t => fetch_tree_images t env.fetchImage) trees
         else .ok []) = .ok images := by
      cases di with
      | false => exact ⟨[], rfl⟩
      | true =>
        simp only [if_true]
        apply mapME_ok_exists
        intro t ht
        obtain ⟨urls, hu⟩ := hsrc t ht
        exact ⟨urls.map env.fetchImage, fetch_tree_images_ok env.fetchImage hu⟩
    obtain ⟨images, himg⟩ := himg
    refine ⟨?_, ?_, ?_⟩
    · intro hfmt hav
      subst hfmt
      cases hv : env.fetchImage (m.user.avatar.replace "-256-" "-512-") with
      | none => simp [download_story, hcov, hne, htrees, himg, hv]
      | some av =>
        rw [hv] at hav
        simp [pyFalsyBytes] at hav
        simp [download_story, hcov, hne, htrees, himg, hv, hav]
    · intro hfmt
      subst hfmt
      exact ⟨images, by simp [download_story, hcov, hne, htrees, himg]⟩
    · intro av hfmt hv hne2
      subst hfmt
      exact ⟨images, by simp [download_story, hcov, hne, htrees, himg, hv, hne2]⟩

/-- C8 witness: with every remote image fetch failing, the request dies with
a 422 on the cover check, independently of the generator. -/
theorem C8_witness :
    download_story ⟨"1", "T", "c", ⟨"u", "a", "d"⟩, []⟩ false .epub
      ⟨fun _ => none, fun _ => []⟩ (fun _ => (0 : Nat)) =
      .error (.httpError 422) :=
  (C8_cover_fatal_images_not Nat ⟨"1", "T", "c", ⟨"u", "a", "d"⟩, []⟩ false .epub
    ⟨fun _ => none, fun _ => []⟩ (fun _ => (0 : Nat))).1 rfl

/-- Helper: `Char.toLower` never produces an uppercase letter. -/
theorem toLower_toNat_bounds (c : Char) :
    (Char.toLower c).toNat < 65 ∨ 90 < (Char.toLower c).toNat := by
  rw [Char.toLower]
  by_cases h : c.toNat ≥ 65 ∧ c.toNat ≤ 90
  · rw [if_pos h]
    have hval : (c.toNat + 32).isValidChar := Or.inl (by omega)
    have heq : (Char.ofNat (c.toNat + 32)).toNat = c.toNat + 32 := by
      rw [Char.ofNat, dif_pos hval]
      simp [Char.ofNatAux, Char.toNat, UInt32.toNat]
    omega
  · rw [if_neg h]
    omega

/-- Helper: the `≤` order on characters is the order of code points. -/
theorem char_le_iff_toNat (a b : Char) : a ≤ b ↔ a.toNat ≤ b.toNat := by
  rw [Char.le_def, UInt32.le_def, BitVec.le_def]
  exact Iff.rfl

/-- Helper: a letter produced by `Char.toLower` is a lowercase letter. -/
theorem toLower_alpha_is_lower {c : Char}
    (h : Char.isAlpha (Char.toLower c) = true) :
    ('a' ≤ Char.toLower c ∧ Char.toLower c ≤ 'z') := by
  have hb := toLower_toNat_bounds c
  rw [char_le_iff_toNat, char_le_iff_toNat]
  have ha : ('a' : Char).toNat = 97 := by decide
  have hz : ('z' : Char).toNat = 122 := by decide
  rw [ha, hz]
  simp [Char.isAlpha, Char.isUpper, Char.isLower] at h
  rcases h with h | h
  · have h1 : 65 ≤ (Char.toLower c).toNat :=
      UInt32.le_toNat_of_le (by norm_num) h.1
    have h2 : (Char.toLower c).toNat ≤ 90 :=
      UInt32.toNat_le_of_le (by norm_num) h.2
    omega
  · exact ⟨UInt32.le_toNat_of_le (by norm_num) h.1,
      UInt32.toNat_le_of_le (by norm_num) h.2⟩

/-- Helper: every character emitted by the run-collapsing substitution is
either the replacement hyphen or a non-space non-hyphen input character. -/
theorem collapseRuns_mem :
    ∀ (l : List Char) (b : Bool) (c : Char), c ∈ collapseRuns b l →
      c = '-' ∨ (c ∈ l ∧ isPySpace c = false ∧ c ≠ '-') := by
  intro l
  induction l with
  | nil => intro b c hc; simp [collapseRuns] at hc
  | cons x xs ih =>
    intro b c hc
    by_cases hx : isPySpace x || x = '-'
    · rw [show collapseRuns b (x :: xs) =
          (if b then [] else ['-']) ++ collapseRuns true xs
        from by simp [collapseRuns, hx]] at hc
      rcases List.mem_append.mp hc with h | h
      · left
        cases b <;> simp_all
      · rcases ih true c h with h1 | h1
        · exact Or.inl h1
        · exact Or.inr ⟨List.mem_cons_of_mem _ h1.1, h1.2⟩
    · rw [show collapseRuns b (x :: xs) = x :: collapseRuns false xs
        from by simp [collapseRuns, hx]] at hc
      rcases List.mem_cons.mp hc with h | h
      · subst h
        simp only [Bool.or_eq_true] at hx
        push_neg at hx
        refine Or.inr ⟨List.mem_cons_self _ _, ?_, ?_⟩
        · simpa using fun hcon => hx.1 hcon
        · intro hcon
          exact hx.2 (by simp [hcon])
      · rcases ih false c h with h1 | h1
        · exact Or.inl h1
        · exact Or.inr ⟨List.mem_cons_of_mem _ h1.1, h1.2⟩

/-- Helper: the head survivor of a `dropWhile` refutes the predicate. -/
theorem dropWhile_head_not {α : Type} (p : α → Bool) :
    ∀ (l : List α) (c : α), (l.dropWhile p).head? = some c → p c = false := by
  intro l
  induction l with
  | nil => intro c h; simp [List.dropWhile] at h
  | cons x xs ih =>
    intro c h
    by_cases hx : p x
    · rw [List.dropWhile_cons_of_pos hx] at h
      exact ih c h
    · rw [List.dropWhile_cons_of_neg hx] at h
      simp at h
      subst h
      simpa using hx

/-- Helper: `dropWhile` keeps the last element of the list it leaves
non-empty. -/
theorem dropWhile_getLast_eq {α : Type} (p : α → Bool) :
    ∀ (l : List α), l.dropWhile p ≠ [] →
      (l.dropWhile p).getLast? = l.getLast? := by
  intro l
  induction l with
  | nil => intro h; simp [List.dropWhile] at h
  | cons x xs ih =>
    intro h
    by_cases hx : p x
    · rw [List.dropWhile_cons_of_pos hx] at h ⊢
      rw [ih h]
      have hxs : xs ≠ [] := by
        intro he
        subst he
        simp [List.dropWhile] at h
      cases xs with
      | nil => exact absurd rfl hxs
      | cons y ys => rw [List.getLast?_cons_cons]
    · rw [List.dropWhile_cons_of_neg hx]

/-- Helper: membership in the stripped list implies membership before
stripping. -/
theorem stripDashUnderscore_subset {c : Char} {l : List Char}
    (h : c ∈ stripDashUnderscore l) : c ∈ l := by
  unfold stripDashUnderscore at h
  rw [List.mem_reverse] at h
  have h1 := (List.dropWhile_sublist isDashUnderscore).subset h
  rw [List.mem_reverse] at h1
  exact (List.dropWhile_sublist isDashUnderscore).subset h1

/-- C10: every character of the slugified filename stem is a lowercase ASCII
letter, a digit, a hyphen or an underscore; it contains no whitespace; and it
neither begins nor ends with a hyphen or underscore — for every input string
and every unicode normalization. -/
theorem C10_slugify_charset :
    ∀ (norm : String → String) (value : String),
      (∀ c ∈ (slugify norm value).data, slugCharOkB c = true) ∧
      (∀ c ∈ (slugify norm value).data, isPySpace c = false) ∧
      (∀ c, (slugify norm value).data.head? = some c → isDashUnderscore c = false) ∧
      (∀ c, (slugify norm value).data.getLast? = some c → isDashUnderscore c = false) := by
  intro norm value
  have hmem : ∀ c ∈ (slugify norm value).data,
      c = '-' ∨ (c ∈ subNonWord ((asciiIgnore (norm value).data).map Char.toLower) ∧
        isPySpace c = false ∧ c ≠ '-') := by
    intro c hc
    have hc2 : c ∈ collapseRuns false
        (subNonWord ((asciiIgnore (norm value).data).map Char.toLower)) :=
      stripDashUnderscore_subset hc
    exact collapseRuns_mem _ false c hc2
  refine ⟨?_, ?_, ?_, ?_⟩
  · intro c hc
    rcases hmem c hc with h | ⟨hmemb, hnsp, hnd⟩
    · subst h; decide
    · have hflt := List.mem_filter.mp hmemb
      have hword : isPyWordChar c = true := by
        rcases Bool.or_eq_true_iff.mp hflt.2 with h1 | h1
        · rcases Bool.or_eq_true_iff.mp h1 with h2 | h2
          · exact h2
          · rw [hnsp] at h2; exact absurd h2 (by simp)
        · exact absurd (by simpa using h1) hnd
      rcases Bool.or_eq_true_iff.mp hword with h1 | h1
      · rcases Bool.or_eq_true_iff.mp h1 with h2 | h2
        · obtain ⟨d, _, hd⟩ := List.mem_map.mp hflt.1
          subst hd
          have := toLower_alpha_is_lower h2
          simp [slugCharOkB, this.1, this.2]
        · simp [slugCharOkB, h2]
      · simp [slugCharOkB]
        simp at h1
        simp [h1]
  · intro c hc
    rcases hmem c hc with h | ⟨_, hnsp, _⟩
    · subst h; decide
    · exact hnsp
  · intro c hc
    have : (slugify norm value).data =
        (((collapseRuns false (subNonWord ((asciiIgnore (norm value).data).map
          Char.toLower))).dropWhile isDashUnderscore).reverse.dropWhile
            isDashUnderscore).reverse := rfl
    rw [this, List.head?_reverse] at hc
    by_cases hne : ((collapseRuns false (subNonWord ((asciiIgnore
        (norm value).data).map Char.toLower))).dropWhile
          isDashUnderscore).reverse.dropWhile isDashUnderscore = []
    · rw [hne] at hc; simp at hc
    · rw [dropWhile_getLast_eq _ _ hne, List.getLast?_reverse] at hc
      exact dropWhile_head_not _ _ c hc
  · intro c hc
    have : (slugify norm value).data =
        (((collapseRuns false (subNonWord ((asciiIgnore (norm value).data).map
          Char.toLower))).dropWhile isDashUnderscore).reverse.dropWhile
            isDashUnderscore).reverse := rfl
    rw [this, List.getLast?_reverse] at hc
    exact dropWhile_head_not _ _ c hc

/-- C10 witness: the theorem applied, at the identity normalization, to an
input with uppercase, punctuation, whitespace and stray dashes. -/
theorem C10_witness : isDashUnderscore 'h' = false :=
  (C10_slugify_charset (fun s => s) " --Hello, World! ").2.2.1 'h' rfl

end WPD

